import Mathlib

set_option maxRecDepth 8000

/-!
Shallow embedding of `avalonia_project_analyzer.py` (repository PyDotNetDev,
file src/Avalonia.NET.Tools/avalonia_project_analyzer.py).

Modelling conventions:
* The filesystem is a value of type `FS`: a list of files (relative paths from
  the project root, as component lists) together with a list of directories.
  Reading a file yields `Except String String` (the error message models the
  Python exception raised by `Path.read_text`).
* `ET.parse` on the `.csproj` file is modelled by the `xml` field of the file:
  it either yields a parsed element tree (`XmlOutcome.ok`), raises
  `ET.ParseError` (`XmlOutcome.parseError`, caught by the source), or raises an
  OS-level read error (`XmlOutcome.readError`, NOT caught by the source, which
  only catches `ET.ParseError`).
* `Path.glob` / `Path.rglob` are modelled over files (directory entries that
  happen to match a file-like glob pattern are not modelled); `exists()` is
  true for files and directories alike, as in `pathlib`.
* Python strings are Lean `String`s; the scans (`in`, `str.split`,
  `re.search`, `re.findall` for the two concrete patterns used) are
  implemented character by character below, mirroring their semantics.
* Each `check_*` method mutates `self.issues` / `self.warnings` / `self.info`;
  here it maps an `AnalyzerState` to a new one.  Checks in which an exception
  can escape (uncaught) return `Except String AnalyzerState`.
-/

/-- Single-quote character as a string; several report messages contain it. -/
def apos : String := String.singleton (Char.ofNat 39)

/-- Whitespace test used by Python `str.strip`. -/
def isWS (c : Char) : Bool :=
  c == ' ' || c == '\t' || c == '\n' || c == '\r' || c == Char.ofNat 11 || c == Char.ofNat 12

/-- `str.strip` on a character list: drop whitespace from both ends. -/
def stripList (cs : List Char) : List Char :=
  ((cs.dropWhile isWS).reverse.dropWhile isWS).reverse

/-- Python `content.strip()`. -/
def pyStrip (s : String) : String := String.mk (stripList s.data)

/-- Boolean list prefix test (no typeclass indirection, for easy reasoning). -/
def prefixOfL : List Char → List Char → Bool
  | [], _ => true
  | _ :: _, [] => false
  | p :: ps, c :: cs => p == c && prefixOfL ps cs

/-- Python `s.startswith(pfx)`. -/
def pyStartsWith (s pfx : String) : Bool := prefixOfL pfx.data s.data

/-- Python `needle in hay` on character lists: `needle` occurs contiguously. -/
def containsL (needle : List Char) : List Char → Bool
  | [] => prefixOfL needle []
  | c :: cs => prefixOfL needle (c :: cs) || containsL needle cs

/-- Python `needle in hay` for strings (argument order: haystack first). -/
def strContains (hay needle : String) : Bool := containsL needle.data hay.data

/-- Python `str.split(sep)` for a one-character separator. -/
def splitChar (sep : Char) : List Char → List (List Char)
  | [] => [[]]
  | c :: cs =>
    let r := splitChar sep cs
    if c = sep then [] :: r
    else (c :: r.headD []) :: r.tail

/-- Components of a relative path string such as `Styles/Base.axaml`. -/
def splitSlash (p : String) : List String := (splitChar '/' p.data).map String.mk

/-- `pathlib` stem: file name without its final suffix. -/
def pyStem (name : String) : String :=
  let cs := name.data
  match cs.reverse.findIdx? (fun c => c == '.') with
  | none => name
  | some j =>
    let i := cs.length - 1 - j
    if 0 < i ∧ i + 1 < cs.length then String.mk (cs.take i) else name

/-- Fuel-driven `fnmatch`-style matcher for the glob patterns the script uses
(only literal characters and `*`).  The fuel is always sufficient when called
through `globMatch`. -/
def globMatchFuel : Nat → List Char → List Char → Bool
  | 0, _, _ => false
  | _ + 1, [], [] => true
  | _ + 1, [], _ :: _ => false
  | fuel + 1, p :: ps, ns =>
    if p = '*' then
      globMatchFuel fuel ps ns ||
        (match ns with
         | [] => false
         | _ :: ns2 => globMatchFuel fuel (p :: ps) ns2)
    else
      match ns with
      | [] => false
      | n :: ns2 => p == n && globMatchFuel fuel ps ns2

/-- Glob pattern match on a single file name. -/
def globMatch (pat name : String) : Bool :=
  globMatchFuel (pat.length + name.length + 1) pat.data name.data

/-- Capture the characters before the next `"` (regex `[^"]*"`), returning the
capture and the remainder after the closing quote; `none` if no quote occurs. -/
def takeToQuote : List Char → Option (List Char × List Char)
  | [] => none
  | c :: cs =>
    if c == '"' then some ([], cs)
    else
      match takeToQuote cs with
      | none => none
      | some (cap, rest) => some (c :: cap, rest)

/-- Fuel-driven scanner for `re.findall(prefix ++ r0 ++ quoted, content)` where
the pattern is a literal prefix followed by `([^"]+)"`: left-to-right,
non-overlapping, captures must be non-empty.  Fuel is always sufficient when
called through `scanQuoted`. -/
def scanQuotedFuel (pfx : List Char) : Nat → List Char → List String
  | 0, _ => []
  | _ + 1, [] => []
  | fuel + 1, c :: cs =>
    if prefixOfL pfx (c :: cs) then
      match takeToQuote (List.drop pfx.length (c :: cs)) with
      | some (cap, rest) =>
        if cap.isEmpty then scanQuotedFuel pfx fuel cs
        else String.mk cap :: scanQuotedFuel pfx fuel rest
      | none => scanQuotedFuel pfx fuel cs
    else scanQuotedFuel pfx fuel cs

/-- All captures of the pattern `pfx([^"]+)"` in a character list. -/
def scanQuoted (pfx : List Char) (cs : List Char) : List String :=
  scanQuotedFuel pfx cs.length cs

/-- Literal part of the pattern `Source="([^"]+)"`. -/
def srcAttrChars : List Char := "Source=\"".data

/-- All `Source="..."` attribute values in a file, as in line 241 of the
source (`re.findall` over the whole content). -/
def findSources (content : String) : List String := scanQuoted srcAttrChars content.data

/-- Literal part of the pattern `x:Class="([^"]+)"`. -/
def xClassChars : List Char := "x:Class=\"".data

/-- First `x:Class="..."` attribute value (`re.search`, line 158). -/
def findXClass (content : String) : Option String := (scanQuoted xClassChars content.data).head?

/-- Matcher for `[^>]*target` at the head of a list: some (possibly empty) run
of characters other than `>` followed by the literal `target`. -/
def noGtThen (target : List Char) : List Char → Bool
  | [] => prefixOfL target []
  | c :: cs => prefixOfL target (c :: cs) || (!(c == '>') && noGtThen target cs)

/-- Literal head of the pattern `<StackPanel[^>]*prop=`. -/
def spTagChars : List Char := "<StackPanel".data

/-- Search for the pattern `<StackPanel[^>]*prop=` on character lists: a
match may start at any position. -/
def stackPanelSearchL (prop : List Char) : List Char → Bool
  | [] => false
  | c :: cs =>
    (prefixOfL spTagChars (c :: cs) &&
      noGtThen (prop ++ ['=']) (List.drop spTagChars.length (c :: cs)))
      || stackPanelSearchL prop cs

/-- The `re.search` call on the StackPanel pattern (line 150). -/
def stackPanelSearch (content prop : String) : Bool :=
  stackPanelSearchL prop.data content.data

/-- The literal pattern STRING `<StackPanel[^>]*{prop}=` which the source
passes to `find_line_number` as the search term (line 151). -/
def stackPanelPattern (prop : String) : String := "<StackPanel[^>]*" ++ prop ++ "="

/-- Helper of `find_line_number`: scan lines, returning the running index of
the first line containing the term, or 0 after the end. -/
def findLineAux (term : List Char) : List (List Char) → Nat → Nat
  | [], _ => 0
  | l :: ls, i => if containsL term l then i else findLineAux term ls (i + 1)

/-- `AvaloniaProjectAnalyzer.find_line_number` (lines 184-190): split the
content on newlines, return the 1-based index of the first line containing the
search term, or 0 if none does. -/
def find_line_number (content search : String) : Nat :=
  findLineAux search.data (splitChar '\n' content.data) 1

/-- Parsed XML element (models `xml.etree.ElementTree.Element`). -/
inductive XMLElem where
  | mk (tag : String) (attrs : List (String × String)) (txt : Option String)
       (children : List XMLElem)

def XMLElem.tag : XMLElem → String
  | .mk t _ _ _ => t

def XMLElem.attrs : XMLElem → List (String × String)
  | .mk _ a _ _ => a

def XMLElem.text : XMLElem → Option String
  | .mk _ _ t _ => t

def XMLElem.children : XMLElem → List XMLElem
  | .mk _ _ _ c => c

mutual
/-- All proper descendants of an element, in document (preorder) order, as
returned by `findall(".//tag")` before filtering. -/
def descendants : XMLElem → List XMLElem
  | .mk _ _ _ cs => descList cs
def descList : List XMLElem → List XMLElem
  | [] => []
  | c :: cs => c :: (descendants c ++ descList cs)
end

/-- `root.findall(".//tag")`: all descendants with the given tag. -/
def findallDesc (root : XMLElem) (tag : String) : List XMLElem :=
  (descendants root).filter (fun e => e.tag == tag)

/-- `root.find(".//tag")`: first descendant with the given tag, if any. -/
def findDesc (root : XMLElem) (tag : String) : Option XMLElem :=
  (descendants root).find? (fun e => e.tag == tag)

/-- `element.get(name, dflt)`. -/
def attrGet (e : XMLElem) (name dflt : String) : String :=
  match e.attrs.find? (fun a => a.1 == name) with
  | some a => a.2
  | none => dflt

/-- Outcome of `ET.parse` on a file: a tree, an `ET.ParseError` (caught by the
source), or an OS-level read error (not caught by the source). -/
inductive XmlOutcome where
  | ok (root : XMLElem)
  | parseError (msg : String)
  | readError (msg : String)

/-- One file of the project tree: path components relative to the project
root, the outcome of reading its text, and the outcome of XML-parsing it. -/
structure FSFile where
  path : List String
  content : Except String String
  xml : XmlOutcome

/-- The project tree: files plus (possibly empty) directories. -/
structure FS where
  files : List FSFile
  dirs : List (List String)

/-- Look up the file at a relative path. -/
def lookupFile (fs : FS) (p : List String) : Option FSFile :=
  fs.files.find? (fun f => f.path == p)

def fileExists (fs : FS) (p : List String) : Bool := (lookupFile fs p).isSome

def dirExists (fs : FS) (p : List String) : Bool := fs.dirs.contains p

/-- `Path.exists()`: true for files and directories alike. -/
def pathExists (fs : FS) (p : List String) : Bool := fileExists fs p || dirExists fs p

/-- `Path.read_text()`: the content of the file, an `IsADirectoryError` for a
directory, a `FileNotFoundError` otherwise. -/
def readText (fs : FS) (p : List String) : Except String String :=
  match lookupFile fs p with
  | some f => f.content
  | none => if dirExists fs p then .error "IsADirectoryError" else .error "FileNotFoundError"

/-- Last path component (`Path.name`). -/
def fileName (f : FSFile) : String := f.path.getLastD ""

/-- `(dir).glob(pat)` over files: direct children of `d` matching `pat`. -/
def globIn (fs : FS) (d : List String) (pat : String) : List FSFile :=
  fs.files.filter (fun f => f.path.dropLast == d && globMatch pat (fileName f))

/-- `(dir).rglob(pat)` over files: files strictly below `d` matching `pat`. -/
def rglobUnder (fs : FS) (d : List String) (pat : String) : List FSFile :=
  fs.files.filter
    (fun f => d.isPrefixOf f.path && decide (d.length < f.path.length) && globMatch pat (fileName f))

/-- The three finding buckets of the analyzer. -/
structure AnalyzerState where
  issues : List String
  warnings : List String
  info : List String
deriving DecidableEq, Repr

/-- Fresh analyzer (`__init__`). -/
def initState : AnalyzerState := ⟨[], [], []⟩

/-- Message `Missing required file: ...` followed by the pattern (line 48). -/
def missingFileMsg (pat : String) : String := "Missing required file: " ++ pat

/-- The required-file patterns, in declared order (lines 39-43). -/
def requiredFiles : List String := ["*.csproj", "App.axaml", "App.axaml.cs"]

/-- Warning for an absent Views folder (line 55). -/
def viewsMissingMsg : String := "Views folder doesn" ++ apos ++ "t exist"

/-- Loop over the required patterns in `check_project_structure`
(lines 45-50). -/
def requiredStep (fs : FS) (st : AnalyzerState) : AnalyzerState :=
  requiredFiles.foldl
    (fun s pat =>
      match globIn fs [] pat with
      | [] => {s with issues := s.issues ++ [missingFileMsg pat]}
      | f :: _ => {s with info := s.info ++ ["Found: " ++ fileName f]}) st

/-- Views-folder part of `check_project_structure` (lines 52-58). -/
def viewsStep (fs : FS) (st : AnalyzerState) : AnalyzerState :=
  if pathExists fs ["Views"] = false then
    {st with warnings := st.warnings ++ [viewsMissingMsg]}
  else
    {st with info := st.info ++
      ["Found " ++ toString (globIn fs ["Views"] "*.axaml").length ++ " view files"]}

/-- Controls-folder part of `check_project_structure` (lines 60-64). -/
def controlsStep (fs : FS) (st : AnalyzerState) : AnalyzerState :=
  if pathExists fs ["Controls"] then
    {st with info := st.info ++
      ["Found " ++ toString (globIn fs ["Controls"] "*.axaml").length ++ " control files"]}
  else st

/-- `AvaloniaProjectAnalyzer.check_project_structure` (lines 35-64). -/
def check_project_structure (fs : FS) (st : AnalyzerState) : AnalyzerState :=
  controlsStep fs (viewsStep fs (requiredStep fs st))

/-- Avalonia package descriptions collected from the descriptor XML
(lines 81-87): the Include attribute, a space, `v` and the Version, for every `PackageReference` child of an
`ItemGroup` whose `Include` attribute mentions `Avalonia`. -/
def avaloniaPackages (root : XMLElem) : List String :=
  (((findallDesc root "ItemGroup").flatMap
      (fun ig => ig.children.filter (fun c => c.tag == "PackageReference"))).filter
    (fun pr => strContains (attrGet pr "Include" "") "Avalonia")).map
    (fun pr => attrGet pr "Include" "" ++ " v" ++ attrGet pr "Version" "Unknown")

/-- Issue recorded when no Avalonia package reference is found (line 94). -/
def noPackagesMsg : String := "No Avalonia packages found in project file"

/-- `AvaloniaProjectAnalyzer.check_csproj_file` (lines 66-104).  The `try`
block catches only `ET.ParseError`; an OS-level read error propagates, which
is modelled by the `Except.error` result. -/
def check_csproj_file (fs : FS) (st : AnalyzerState) : Except String AnalyzerState :=
  match (globIn fs [] "*.csproj").head? with
  | none => .ok {st with issues := st.issues ++ ["No .csproj file found"]}
  | some f =>
    match f.xml with
    | .readError e => .error e
    | .parseError e => .ok {st with issues := st.issues ++ ["Failed to parse .csproj file: " ++ e]}
    | .ok root =>
      let pkgs := avaloniaPackages root
      let st :=
        if pkgs.isEmpty then
          {st with issues := st.issues ++ [noPackagesMsg]}
        else
          {st with info := st.info ++ ["Avalonia packages:"] ++ pkgs.map (fun p => "  - " ++ p)}
      .ok (match findDesc root "UseAvalonia" with
        | none => {st with warnings := st.warnings ++ ["UseAvalonia property not found in project file"]}
        | some el =>
          if el.text ≠ some "true" then
            {st with issues := st.issues ++ ["UseAvalonia property is not set to true"]}
          else st)

/-- The fixed typo table (lines 132-136). -/
def typosList : List (String × String) :=
  [("ColumnDefinin", "ColumnDefinitions"), ("RowDefinin", "RowDefinitions"),
   ("MultiClass", "Classes")]

/-- The properties deemed unsupported on StackPanel (lines 144-146). -/
def unsupportedProps : List String := ["ColumnGap", "RowGap", "Padding"]

/-- Issue text for a found typo (line 141). -/
def typoMsg (name : String) (k : Nat) (typo correct : String) : String :=
  name ++ ":" ++ toString k ++ ": Found " ++ apos ++ typo ++ apos ++
    " (should be " ++ apos ++ correct ++ apos ++ ")"

/-- Issue text for an unsupported StackPanel property (lines 152-155). -/
def propMsg (name : String) (k : Nat) (prop : String) : String :=
  if prop = "Padding" then
    name ++ ":" ++ toString k ++ ": StackPanel doesn" ++ apos ++ "t support Padding (use Border instead)"
  else
    name ++ ":" ++ toString k ++ ": " ++ prop ++ " not supported in Avalonia 11.0.7 (use Margin instead)"

/-- Issue text when reading a XAML file raises (line 166). -/
def readFailMsg (name e : String) : String := name ++ ": Failed to read file - " ++ e

/-- Issue text for an empty XAML file (line 123). -/
def emptyFileMsg (name : String) : String := name ++ ": File is empty"

/-- Issue text for a XAML file with no root element (line 128). -/
def noRootMsg (name : String) : String := name ++ ": No root element"

/-- Warning text for an x:Class mismatch (line 163). -/
def xclassMsg (name declared expected : String) : String :=
  name ++ ": x:Class " ++ apos ++ declared ++ apos ++ " might not match file location (expected " ++
    apos ++ expected ++ apos ++ ")"

/-- `AvaloniaProjectAnalyzer.get_expected_class_name` (lines 168-182). -/
def get_expected_class_name (f : FSFile) : String :=
  let parts := f.path.dropLast
  let className := pyStem (fileName f)
  let ns :=
    if parts.isEmpty then "JobFinderApp.Desktop"
    else "JobFinderApp.Desktop." ++ String.intercalate "." parts
  ns ++ "." ++ className

/-- Typo loop of `check_single_xaml_file` (lines 138-141). -/
def typosStep (name content : String) (st : AnalyzerState) : AnalyzerState :=
  typosList.foldl
    (fun s tc =>
      if strContains content tc.1 then
        {s with issues := s.issues ++
          [typoMsg name (find_line_number content tc.1) tc.1 tc.2]}
      else s) st

/-- Unsupported-property loop of `check_single_xaml_file` (lines 148-155).
Note that the source passes the literal pattern string, not the matched text,
to `find_line_number`. -/
def propsStep (name content : String) (st : AnalyzerState) : AnalyzerState :=
  unsupportedProps.foldl
    (fun s prop =>
      if stackPanelSearch content prop then
        {s with issues := s.issues ++
          [propMsg name (find_line_number content (stackPanelPattern prop)) prop]}
      else s) st

/-- x:Class part of `check_single_xaml_file` (lines 157-163). -/
def xclassStep (f : FSFile) (content : String) (st : AnalyzerState) : AnalyzerState :=
  match findXClass content with
  | none => st
  | some declared =>
    let expected := get_expected_class_name f
    if expected != "" && declared != expected then
      {st with warnings := st.warnings ++ [xclassMsg (fileName f) declared expected]}
    else st

/-- `AvaloniaProjectAnalyzer.check_single_xaml_file` (lines 116-166).  The
whole body is inside `try/except Exception`, so a read failure becomes an
issue finding and the check always completes. -/
def check_single_xaml_file (f : FSFile) (st : AnalyzerState) : AnalyzerState :=
  match f.content with
  | .error e => {st with issues := st.issues ++ [readFailMsg (fileName f) e]}
  | .ok content =>
    if pyStrip content = "" then
      {st with issues := st.issues ++ [emptyFileMsg (fileName f)]}
    else if !(pyStartsWith (pyStrip content) "<") then
      {st with issues := st.issues ++ [noRootMsg (fileName f)]}
    else
      xclassStep f content (propsStep (fileName f) content (typosStep (fileName f) content st))

/-- `AvaloniaProjectAnalyzer.check_xaml_files` (lines 106-114). -/
def check_xaml_files (fs : FS) (st : AnalyzerState) : AnalyzerState :=
  let xamlFiles := rglobUnder fs [] "*.axaml"
  let st := {st with info := st.info ++ ["Found " ++ toString xamlFiles.length ++ " XAML files"]}
  xamlFiles.foldl (fun s f => check_single_xaml_file f s) st

/-- Warning for a style file not referenced from App.axaml (line 218). -/
def styleNotRefMsg (name : String) : String :=
  "Style file " ++ name ++ " not referenced in App.axaml"

/-- `AvaloniaProjectAnalyzer.check_resources` (lines 192-220).  The read of
`App.axaml` at line 214 has NO exception handler, so a read failure there
propagates, modelled by the `Except.error` result. -/
def check_resources (fs : FS) (st : AnalyzerState) : Except String AnalyzerState :=
  let st :=
    if pathExists fs ["Assets"] then
      {st with info := st.info ++
        ["Found " ++ toString (rglobUnder fs ["Assets"] "*").length ++ " asset files"]}
    else
      {st with warnings := st.warnings ++ ["No Assets folder found"]}
  if pathExists fs ["Styles"] then
    let styleFiles := globIn fs ["Styles"] "*.axaml"
    let st := {st with info := st.info ++
      ["Found " ++ toString styleFiles.length ++ " style files"]}
    if pathExists fs ["App.axaml"] then
      match readText fs ["App.axaml"] with
      | .error e => .error e
      | .ok appContent =>
        .ok (styleFiles.foldl
          (fun s sf =>
            if strContains appContent ("Styles/" ++ fileName sf) then s
            else {s with warnings := s.warnings ++ [styleNotRefMsg (fileName sf)]}) st)
    else .ok st
  else .ok {st with info := st.info ++ ["No Styles folder found"]}

/-- Issue text for a style include whose path does not exist (line 245). -/
def missingStyleMsg (p : String) : String := "App.axaml references missing style: " ++ p

/-- Style-include block of `check_app_files` (lines 239-245): only when the
token `StyleInclude` occurs in the content, every `Source="..."` value in the
whole file is extracted, and each one whose path does not exist yields an
issue.  Returns the list of issues the block appends. -/
def appStyleIssues (fs : FS) (content : String) : List String :=
  if strContains content "StyleInclude" then
    (findSources content).foldl
      (fun acc sp =>
        if pathExists fs (splitSlash sp) then acc else acc ++ [missingStyleMsg sp]) []
  else []

/-- Issue text when App.axaml lacks an Application root element (line 235). -/
def noApplicationMsg : String := "App.axaml doesn" ++ apos ++ "t contain Application root element"

/-- Warning when App.axaml.cs does not call InitializeComponent (line 256). -/
def noInitCallMsg : String := "App.axaml.cs doesn" ++ apos ++ "t call InitializeComponent()"

/-- App.axaml part of `check_app_files` (lines 229-250).  The body is inside
`try/except Exception`: a read failure becomes an issue finding. -/
def appAxamlStep (fs : FS) (st : AnalyzerState) : AnalyzerState :=
  if pathExists fs ["App.axaml"] then
    match readText fs ["App.axaml"] with
    | .error e => {st with issues := st.issues ++ ["Failed to read App.axaml: " ++ e]}
    | .ok content =>
      let st1 :=
        if pyStrip content = "" then
          {st with issues := st.issues ++ ["App.axaml is empty"]}
        else if !(strContains content "Application") then
          {st with issues := st.issues ++ [noApplicationMsg]}
        else
          {st with info := st.info ++ ["App.axaml looks valid"]}
      {st1 with issues := st1.issues ++ appStyleIssues fs content}
  else {st with issues := st.issues ++ ["App.axaml not found"]}

/-- App.axaml.cs part of `check_app_files` (lines 252-261), also guarded by
`try/except Exception`. -/
def appCsStep (fs : FS) (st : AnalyzerState) : AnalyzerState :=
  if pathExists fs ["App.axaml.cs"] then
    match readText fs ["App.axaml.cs"] with
    | .error e => {st with issues := st.issues ++ ["Failed to read App.axaml.cs: " ++ e]}
    | .ok content =>
      let st1 :=
        if !(strContains content "InitializeComponent") then
          {st with warnings := st.warnings ++ [noInitCallMsg]}
        else st
      {st1 with info := st1.info ++ ["App.axaml.cs exists"]}
  else {st with issues := st.issues ++ ["App.axaml.cs not found"]}

/-- `AvaloniaProjectAnalyzer.check_app_files` (lines 222-261). -/
def check_app_files (fs : FS) (st : AnalyzerState) : AnalyzerState :=
  appCsStep fs (appAxamlStep fs st)

/-- Warning when obj exists but holds no generated code (line 275). -/
def noGeneratedMsg : String := "No generated code files found (XAML might not be compiling)"

/-- Warning when obj is missing (line 282). -/
def noObjMsg : String := "No obj folder found (project hasn" ++ apos ++ "t been built)"

/-- `AvaloniaProjectAnalyzer.check_build_artifacts` (lines 263-291). -/
def check_build_artifacts (fs : FS) (st : AnalyzerState) : AnalyzerState :=
  let st :=
    if pathExists fs ["obj"] then
      let gen := rglobUnder fs ["obj"] "*.g.cs"
      let st :=
        if !gen.isEmpty then
          {st with info := st.info ++ ["Found " ++ toString gen.length ++ " generated code files"]}
        else
          {st with warnings := st.warnings ++ [noGeneratedMsg]}
      if !(rglobUnder fs ["obj"] "*avalonia*").isEmpty then
        {st with info := st.info ++ ["Avalonia build cache exists"]}
      else st
    else {st with warnings := st.warnings ++ [noObjMsg]}
  if pathExists fs ["bin"] then
    let exes := rglobUnder fs ["bin"] "*.exe"
    if !exes.isEmpty then
      {st with info := st.info ++ ["Found " ++ toString exes.length ++ " executable files"]}
    else st
  else {st with warnings := st.warnings ++ ["No bin folder found"]}

/-- `AvaloniaProjectAnalyzer.analyze` (lines 21-33): run the checks in order,
starting from a fresh state; an uncaught exception in a check aborts the whole
run (`Except.error`). -/
def analyze (fs : FS) : Except String AnalyzerState :=
  let st := check_project_structure fs initState
  match check_csproj_file fs st with
  | .error e => .error e
  | .ok st =>
    let st := check_xaml_files fs st
    match check_resources fs st with
    | .error e => .error e
    | .ok st =>
      let st := check_app_files fs st
      .ok (check_build_artifacts fs st)

/-- Sixty equals signs, printed as a separator. -/
def eqSep : String := String.mk (List.replicate 60 '=')

/-- Numbered listing used by `print_results` (three spaces, index, dot, message). -/
def numberedLines (l : List String) : List String :=
  l.enum.map (fun p => "   " ++ toString (p.1 + 1) ++ ". " ++ p.2)

/-- `AvaloniaProjectAnalyzer.print_results` (lines 293-322): the sequence of
strings passed to `print`, in order. -/
def printResults (st : AnalyzerState) : List String :=
  ["\n" ++ eqSep, "📊 ANALYSIS RESULTS", eqSep]
  ++ (if st.issues.isEmpty then [] else
      ["\n❌ CRITICAL ISSUES (" ++ toString st.issues.length ++ "):"] ++ numberedLines st.issues)
  ++ (if st.warnings.isEmpty then [] else
      ["\n⚠️  WARNINGS (" ++ toString st.warnings.length ++ "):"] ++ numberedLines st.warnings)
  ++ (if st.info.isEmpty then [] else
      ["\n✅ INFO (" ++ toString st.info.length ++ "):"] ++ numberedLines st.info)
  ++ ["\n🎯 SUMMARY:",
      "   Issues: " ++ toString st.issues.length ++ " | Warnings: " ++
        toString st.warnings.length ++ " | Info: " ++ toString st.info.length]
  ++ (if st.issues.isEmpty then [] else
      ["\n🔧 RECOMMENDED ACTIONS:",
       "   1. Fix all critical issues first",
       "   2. Address warnings that might affect functionality",
       "   3. Clean and rebuild project",
       "   4. Test application startup"])

/-- Progress lines printed by `analyze` before the results, in order. -/
def headerLines : List String :=
  ["🔍 AVALONIA PROJECT DIAGNOSTIC ANALYSIS", eqSep,
   "📁 Checking project structure...",
   "🔧 Checking project file...",
   "📄 Checking XAML files...",
   "🖼️  Checking resources...",
   "🚀 Checking application files...",
   "🔨 Checking build artifacts..."]

/-- Observable outcome of one successful program run: everything printed plus
the three finding sequences. -/
structure RunReport where
  printed : List String
  issues : List String
  warnings : List String
  info : List String
deriving DecidableEq, Repr

/-- Error line printed by `main` for a nonexistent path (line 331). -/
def errLine (p : String) : String :=
  "❌ Error: Path " ++ apos ++ p ++ apos ++ " does not exist"

/-- `main` (lines 324-335): `pathOk` models `os.path.exists(project_path)`.
If the path does not exist, a single error line is printed and no check runs;
otherwise a fresh analyzer is run and its report printed.  An uncaught
exception inside the audit escapes `main` (`Except.error`). -/
def mainRun (projectPath : String) (pathOk : Bool) (fs : FS) : Except String RunReport :=
  if pathOk then
    match analyze fs with
    | .error e => .error e
    | .ok st => .ok ⟨headerLines ++ printResults st, st.issues, st.warnings, st.info⟩
  else .ok ⟨[errLine projectPath], [], [], []⟩

/-! Concrete project trees used as counterexamples and witnesses. -/

/-- An App.axaml whose read raises (e.g. a `UnicodeDecodeError`). -/
def fAppBadRead : FSFile := ⟨["App.axaml"], Except.error "UnicodeDecodeError", XmlOutcome.parseError ""⟩

/-- Tree with a Styles directory and an unreadable App.axaml: the unguarded
read at line 214 of the source aborts the audit. -/
def fsC1 : FS := ⟨[fAppBadRead], [["Styles"]]⟩

/-- A XAML file whose read raises. -/
def fBad1 : FSFile := ⟨["Bad.axaml"], Except.error "boom", XmlOutcome.parseError ""⟩

/-- An App.axaml whose read raises. -/
def fApp1 : FSFile := ⟨["App.axaml"], Except.error "io1", XmlOutcome.parseError ""⟩

/-- An App.axaml.cs whose read raises. -/
def fAppCs1 : FSFile := ⟨["App.axaml.cs"], Except.error "io2", XmlOutcome.parseError ""⟩

/-- A .csproj on which `ET.parse` raises an OS-level read error. -/
def fProj1 : FSFile := ⟨["app.csproj"], Except.ok "", XmlOutcome.readError "oserr"⟩

/-- Tree exercising every read-failure site at once. -/
def fsW1 : FS := ⟨[fBad1, fApp1, fAppCs1, fProj1], [["Styles"]]⟩

/-- Content with a StackPanel carrying ColumnGap on line 2. -/
def cC2 : String := "<UserControl>\n  <StackPanel ColumnGap=\"5\" />\n</UserControl>"

/-- Markup file for the unsupported-attribute line-number check. -/
def fC2 : FSFile := ⟨["Main.axaml"], Except.ok cC2, XmlOutcome.parseError ""⟩

/-- Non-empty content containing a typo token but no root element. -/
def cC3 : String := "ColumnDefinin"

/-- Markup file whose content is `cC3`. -/
def fC3 : FSFile := ⟨["X.axaml"], Except.ok cC3, XmlOutcome.parseError ""⟩

/-- Well-formed markup containing the `ColumnDefinin` typo on line 1. -/
def cC3w : String := "<Grid ColumnDefinin=\"x\" />"

/-- Markup file whose content is `cC3w`. -/
def fC3w : FSFile := ⟨["Grid.axaml"], Except.ok cC3w, XmlOutcome.parseError ""⟩

/-- The empty project tree. -/
def fs0 : FS := ⟨[], []⟩

/-- A PackageReference that does not mention Avalonia. -/
def prW5 : XMLElem := .mk "PackageReference" [("Include", "Newtonsoft.Json"), ("Version", "13.0")] none []

/-- An ItemGroup holding `prW5`. -/
def igW5 : XMLElem := .mk "ItemGroup" [] none [prW5]

/-- A well-formed project descriptor with no Avalonia packages. -/
def rootW5 : XMLElem := .mk "Project" [] none [igW5]

/-- The descriptor file parsing to `rootW5`. -/
def fCs5 : FSFile := ⟨["app.csproj"], Except.ok "", XmlOutcome.ok rootW5⟩

/-- Tree holding only the descriptor `fCs5`. -/
def fsW5 : FS := ⟨[fCs5], []⟩

/-- App.axaml referencing `Source="Styles"`, a path that exists only as a
directory. -/
def cC6 : String := "<Application>\n  <StyleInclude Source=\"Styles\" />\n</Application>"

/-- Tree where the referenced style path is a directory, not a file. -/
def fsC6 : FS := ⟨[⟨["App.axaml"], Except.ok cC6, XmlOutcome.parseError ""⟩,
  ⟨["App.axaml.cs"], Except.ok "InitializeComponent()", XmlOutcome.parseError ""⟩], [["Styles"]]⟩

/-- App.axaml referencing a style path that exists nowhere. -/
def cW6 : String := "<Application>\n  <StyleInclude Source=\"Styles/Missing.axaml\" />\n</Application>"

/-- Tree whose App.axaml references the missing `Styles/Missing.axaml`. -/
def fsW6 : FS := ⟨[⟨["App.axaml"], Except.ok cW6, XmlOutcome.parseError ""⟩], []⟩

/-- A markup file holding only whitespace. -/
def fC10 : FSFile := ⟨["E.axaml"], Except.ok "   ", XmlOutcome.parseError ""⟩

/-- Discriminator: did the check complete without an uncaught exception? -/
def isOkB (r : Except String AnalyzerState) : Bool :=
  match r with
  | .ok _ => true
  | .error _ => false

/-- Issues of a completed check (empty for an aborted one). -/
def okIssues (r : Except String AnalyzerState) : List String :=
  match r with
  | .ok s => s.issues
  | .error _ => []

/-! Helper lemmas shared by several claims. -/

theorem foldl_issue_append {α : Type} (g : α → Bool) (m : α → String) :
    ∀ (xs : List α) (st : AnalyzerState),
      List.foldl (fun s x => if g x then {s with issues := s.issues ++ [m x]} else s) st xs
        = {st with issues := st.issues ++ (xs.filter g).map m} := by
  intro xs
  induction xs with
  | nil => intro st; simp
  | cons a xs ih =>
    intro st
    cases h : g a with
    | false => simp [h, ih]
    | true => simp [h, ih]

theorem foldl_acc_append {α : Type} (g : α → Bool) (m : α → String) :
    ∀ (xs : List α) (acc : List String),
      List.foldl (fun a x => if g x then a else a ++ [m x]) acc xs
        = acc ++ ((xs.filter fun x => !g x).map m) := by
  intro xs
  induction xs with
  | nil => intro acc; simp
  | cons a xs ih =>
    intro acc
    cases h : g a with
    | false => simp [h, ih]
    | true => simp [h, ih]

theorem typosStep_eq (name content : String) (st : AnalyzerState) :
    typosStep name content st = {st with issues := st.issues ++
      ((typosList.filter fun tc => strContains content tc.1).map
        fun tc => typoMsg name (find_line_number content tc.1) tc.1 tc.2)} := by
  unfold typosStep
  exact foldl_issue_append _ _ typosList st

theorem propsStep_eq (name content : String) (st : AnalyzerState) :
    propsStep name content st = {st with issues := st.issues ++
      ((unsupportedProps.filter fun prop => stackPanelSearch content prop).map
        fun prop => propMsg name (find_line_number content (stackPanelPattern prop)) prop)} := by
  unfold propsStep
  exact foldl_issue_append _ _ unsupportedProps st

theorem appStyleIssues_eq (fs : FS) (content : String) :
    appStyleIssues fs content =
      if strContains content "StyleInclude" then
        ((findSources content).filter fun sp => !(pathExists fs (splitSlash sp))).map missingStyleMsg
      else [] := by
  unfold appStyleIssues
  cases h : strContains content "StyleInclude" with
  | false => simp [h]
  | true =>
    simp only [h, if_true]
    simpa using foldl_acc_append (fun sp => pathExists fs (splitSlash sp))
      missingStyleMsg (findSources content) []

theorem xclassStep_issues (f : FSFile) (content : String) (st : AnalyzerState) :
    (xclassStep f content st).issues = st.issues := by
  unfold xclassStep
  cases findXClass content with
  | none => rfl
  | some declared =>
    dsimp only
    split <;> rfl

theorem viewsStep_issues (fs : FS) (st : AnalyzerState) :
    (viewsStep fs st).issues = st.issues := by
  unfold viewsStep
  split <;> rfl

theorem controlsStep_issues (fs : FS) (st : AnalyzerState) :
    (controlsStep fs st).issues = st.issues := by
  unfold controlsStep
  split <;> rfl

theorem appCsStep_mem (fs : FS) (st : AnalyzerState) (x : String) (h : x ∈ st.issues) :
    x ∈ (appCsStep fs st).issues := by
  unfold appCsStep
  split
  · split
    · exact List.mem_append_left _ h
    · dsimp only
      split <;> exact h
  · exact List.mem_append_left _ h

theorem splitChar_ne_nil (sep : Char) (cs : List Char) : splitChar sep cs ≠ [] := by
  cases cs with
  | nil => simp [splitChar]
  | cons c cs => simp only [splitChar]; split <;> simp

theorem containsL_of_prefix {needle l : List Char} (h : prefixOfL needle l = true) :
    containsL needle l = true := by
  cases l with
  | nil => simpa [containsL] using h
  | cons c cs => simp [containsL, h]

theorem prefix_firstLine : ∀ (needle cs : List Char), (∀ ch ∈ needle, ch ≠ '\n') →
    prefixOfL needle cs = true →
    prefixOfL needle ((splitChar '\n' cs).headD []) = true := by
  intro needle
  induction needle with
  | nil => intro cs _ _; rfl
  | cons n ns ih =>
    intro cs hn hp
    cases cs with
    | nil => simp [prefixOfL] at hp
    | cons c cs2 =>
      simp only [prefixOfL, Bool.and_eq_true, beq_iff_eq] at hp
      obtain ⟨rfl, hp2⟩ := hp
      have hnn : n ≠ '\n' := hn n (by simp)
      simp only [splitChar, if_neg hnn, List.headD_cons]
      simp only [prefixOfL, Bool.and_eq_true, beq_iff_eq]
      exact ⟨by trivial, ih cs2 (fun ch hch => hn ch (by simp [hch])) hp2⟩

theorem contains_line_of_containsL : ∀ (cs needle : List Char),
    (∀ ch ∈ needle, ch ≠ '\n') → containsL needle cs = true →
    ∃ l ∈ splitChar '\n' cs, containsL needle l = true := by
  intro cs
  induction cs with
  | nil =>
    intro needle _ h
    exact ⟨[], by simp [splitChar], h⟩
  | cons c cs2 ih =>
    intro needle hn h
    simp only [containsL, Bool.or_eq_true] at h
    rcases h with hp | hc
    · refine ⟨(splitChar '\n' (c :: cs2)).headD [], ?_,
        containsL_of_prefix (prefix_firstLine needle (c :: cs2) hn hp)⟩
      have hne := splitChar_ne_nil '\n' (c :: cs2)
      cases hE : splitChar '\n' (c :: cs2) with
      | nil => exact absurd hE hne
      | cons l0 ls => simp
    · obtain ⟨l, hmem, hl⟩ := ih needle hn hc
      by_cases hcn : c = '\n'
      · subst hcn
        exact ⟨l, by simp [splitChar, hmem], hl⟩
      · have hne := splitChar_ne_nil '\n' cs2
        cases hE : splitChar '\n' cs2 with
        | nil => exact absurd hE hne
        | cons l0 ls =>
          rw [hE] at hmem
          rcases List.mem_cons.mp hmem with rfl | htl
          · refine ⟨c :: l, ?_, ?_⟩
            · simp [splitChar, hcn, hE]
            · simp [containsL, hl]
          · exact ⟨l, by simp [splitChar, hcn, hE, htl], hl⟩

theorem findLineAux_spec (term : List Char) :
    ∀ (ls : List (List Char)) (i : Nat),
      (findLineAux term ls i = 0 ∧ ∀ l ∈ ls, containsL term l = false) ∨
      (∃ j, j < ls.length ∧ findLineAux term ls i = i + j ∧
        containsL term (ls.getD j []) = true ∧
        ∀ j2, j2 < j → containsL term (ls.getD j2 []) = false) := by
  intro ls
  induction ls with
  | nil =>
    intro i
    left
    refine ⟨rfl, ?_⟩
    simp
  | cons l ls ih =>
    intro i
    by_cases h : containsL term l = true
    · right
      refine ⟨0, by simp, by simp [findLineAux, h], by simpa using h, by omega⟩
    · rw [Bool.not_eq_true] at h
      rcases ih (i + 1) with ⟨h0, hall⟩ | ⟨j, hj, heq, hc, hprev⟩
      · left
        constructor
        · simp [findLineAux, h, h0]
        · intro l2 hm
          rcases List.mem_cons.mp hm with rfl | hm2
          · exact h
          · exact hall l2 hm2
      · right
        refine ⟨j + 1, by simpa using hj, ?_, by simpa using hc, ?_⟩
        · simp only [findLineAux, h, if_false, Bool.false_eq_true]
          rw [heq]; omega
        · intro j2 hj2
          cases j2 with
          | zero => simpa using h
          | succ j3 => simpa using hprev j3 (by omega)

theorem find_line_number_pos (content term : String)
    (hnl : ∀ ch ∈ term.data, ch ≠ '\n')
    (hc : strContains content term = true) :
    1 ≤ find_line_number content term := by
  obtain ⟨l, hm, hl⟩ := contains_line_of_containsL content.data term.data hnl hc
  rcases findLineAux_spec term.data (splitChar '\n' content.data) 1 with ⟨_, hall⟩ | ⟨j, _, heq, _, _⟩
  · rw [hall l hm] at hl; cases hl
  · show 1 ≤ findLineAux term.data (splitChar '\n' content.data) 1
    omega

theorem str_append_cancel {p a b : String} (h : p ++ a = p ++ b) : a = b := by
  have h2 : p.data ++ a.data = p.data ++ b.data := by
    rw [← String.data_append, ← String.data_append, h]
  have h3 : a.data = b.data := List.append_cancel_left h2
  cases a; cases b
  exact congrArg String.mk h3

theorem count_map_missing : ∀ (l : List String) (a : String),
    (l.map missingStyleMsg).count (missingStyleMsg a) = l.count a := by
  intro l
  induction l with
  | nil => intro a; rfl
  | cons b t ih =>
    intro a
    simp only [List.map_cons, List.count_cons, ih]
    congr 1
    by_cases hba : b = a
    · subst hba; simp
    · have hne : ¬(missingStyleMsg b = missingStyleMsg a) :=
        fun hh => hba (str_append_cancel hh)
      simp [hba, hne]

theorem isPrefixOf_append_self (l t : List String) : l.isPrefixOf (l ++ t) = true := by
  induction l with
  | nil => simp [List.isPrefixOf]
  | cons a l ih => simp [List.isPrefixOf, ih]

theorem readText_ok_exists (fs : FS) (p : List String) (c : String)
    (h : readText fs p = Except.ok c) : pathExists fs p = true := by
  unfold readText at h
  cases hl : lookupFile fs p with
  | none =>
    rw [hl] at h
    by_cases hd : dirExists fs p <;> simp [hd] at h
  | some f => simp [pathExists, fileExists, hl]

/-! Claim theorems. -/

/-- C7 (confirmed): for every root path that does not exist, `main` prints a
single error line naming the path and returns before running any check: the
run yields no issue, warning or info finding, and no exception escapes
(the result is `Except.ok`). -/
theorem c7_nonexistent_path (p : String) (fs : FS) :
    mainRun p false fs = Except.ok ⟨[errLine p], [], [], []⟩ := rfl

/-- C8 (confirmed): the audit is a pure function of the project tree; each run
starts from a fresh analyzer state, so two runs over an unchanged tree return
the same outcome, hence byte-identical printed report and identical issue,
warning and info sequences. -/
theorem c8_determinism (p : String) (fs1 fs2 : FS) (h : fs1 = fs2) :
    mainRun p true fs1 = mainRun p true fs2 := by rw [h]

/-- Witness for `c8_determinism` at a concrete tree. -/
theorem c8_determinism_witness : mainRun "proj" true fs0 = mainRun "proj" true fs0 :=
  c8_determinism "proj" fs0 fs0 rfl

/-- C2 (code bug): on a markup file whose StackPanel carries `ColumnGap` on
line 2, the check does flag the attribute, but the reported line number is 0,
not the line of the offending element: the source passes the literal regex
pattern text, which matches no line, to `find_line_number`. -/
theorem c2_unsupported_attr_line_zero :
    check_single_xaml_file fC2 initState =
      ⟨["Main.axaml:0: ColumnGap not supported in Avalonia 11.0.7 (use Margin instead)"], [], []⟩ ∧
    stackPanelSearch cC2 "ColumnGap" = true ∧
    find_line_number cC2 "<StackPanel" = 2 ∧
    find_line_number cC2 (stackPanelPattern "ColumnGap") = 0 :=
  ⟨rfl, rfl, rfl, rfl⟩

/-- C4 (confirmed): if no file matches any of the three required patterns,
the structure check appends exactly one issue per missing pattern, in the
declared order of `requiredFiles`. -/
theorem c4_structure_missing (fs : FS) (st : AnalyzerState)
    (h : ∀ pat ∈ requiredFiles, globIn fs [] pat = []) :
    (check_project_structure fs st).issues = st.issues ++ requiredFiles.map missingFileMsg := by
  have h1 := h "*.csproj" (by simp [requiredFiles])
  have h2 := h "App.axaml" (by simp [requiredFiles])
  have h3 := h "App.axaml.cs" (by simp [requiredFiles])
  unfold check_project_structure
  rw [controlsStep_issues, viewsStep_issues]
  simp [requiredStep, requiredFiles, h1, h2, h3, missingFileMsg]

/-- Witness for `c4_structure_missing` on the empty tree. -/
theorem c4_structure_missing_witness :
    (check_project_structure fs0 initState).issues =
      initState.issues ++ requiredFiles.map missingFileMsg :=
  c4_structure_missing fs0 initState (fun _ _ => rfl)

/-- C10 (confirmed): a markup file whose content strips to the empty string,
or whose stripped content does not start with `<`, yields exactly one issue
(`File is empty` in the first case, `No root element` otherwise) and the
typo, unsupported-attribute and x:Class scans are not performed: nothing else
is appended to any finding bucket. -/
theorem c10_empty_or_no_root (f : FSFile) (st : AnalyzerState) (content : String)
    (hco : f.content = Except.ok content)
    (h : pyStrip content = "" ∨ pyStartsWith (pyStrip content) "<" = false) :
    check_single_xaml_file f st =
      {st with issues := st.issues ++
        [if pyStrip content = "" then emptyFileMsg (fileName f) else noRootMsg (fileName f)]} := by
  rcases h with h | h
  · simp [check_single_xaml_file, hco, h]
  · by_cases h1 : pyStrip content = ""
    · simp [check_single_xaml_file, hco, h1]
    · simp [check_single_xaml_file, hco, h1, h]

/-- Witness for `c10_empty_or_no_root` on a whitespace-only file. -/
theorem c10_empty_or_no_root_witness :
    check_single_xaml_file fC10 initState =
      {initState with issues := initState.issues ++
        [if pyStrip "   " = "" then emptyFileMsg (fileName fC10) else noRootMsg (fileName fC10)]} :=
  c10_empty_or_no_root fC10 initState "   " rfl (Or.inl (by decide))

/-- C1 (counterexample): the audit does NOT always complete.  On a tree with
a Styles directory and an App.axaml whose read raises, the unguarded
`read_text` in `check_resources` (line 214 of the source) lets the exception
escape: the whole run aborts with it and no report is produced. -/
theorem c1_incomplete_audit_counterexample :
    mainRun "proj" true fsC1 = Except.error "UnicodeDecodeError" ∧
    readText fsC1 ["App.axaml"] = Except.error "UnicodeDecodeError" :=
  ⟨rfl, rfl⟩

/-- C1 (amended): exceptions while reading a markup file in the markup check,
or while reading App.axaml or App.axaml.cs in the app-file check, are caught
locally and converted into issue findings naming the file and the error, and
those checks complete; but an OS-level read error on the descriptor file in
the descriptor check (which catches only `ET.ParseError`), or a read error on
App.axaml inside the resource check, is not caught and aborts the audit. -/
theorem c1_amended_failure_semantics :
    (∀ (f : FSFile) (st : AnalyzerState) (e : String), f.content = Except.error e →
      check_single_xaml_file f st =
        {st with issues := st.issues ++ [readFailMsg (fileName f) e]}) ∧
    (∀ (fs : FS) (st : AnalyzerState) (e : String),
      pathExists fs ["App.axaml"] = true → readText fs ["App.axaml"] = Except.error e →
      ("Failed to read App.axaml: " ++ e) ∈ (check_app_files fs st).issues) ∧
    (∀ (fs : FS) (st : AnalyzerState) (e : String),
      pathExists fs ["App.axaml.cs"] = true → readText fs ["App.axaml.cs"] = Except.error e →
      ("Failed to read App.axaml.cs: " ++ e) ∈ (check_app_files fs st).issues) ∧
    (∀ (fs : FS) (st : AnalyzerState) (f : FSFile) (e : String),
      (globIn fs [] "*.csproj").head? = some f → f.xml = XmlOutcome.readError e →
      check_csproj_file fs st = Except.error e) ∧
    (∀ (fs : FS) (st : AnalyzerState) (e : String),
      pathExists fs ["Styles"] = true → pathExists fs ["App.axaml"] = true →
      readText fs ["App.axaml"] = Except.error e →
      check_resources fs st = Except.error e) := by
  refine ⟨?_, ?_, ?_, ?_, ?_⟩
  · intro f st e h
    simp [check_single_xaml_file, h]
  · intro fs st e happ hrt
    have h1 : ("Failed to read App.axaml: " ++ e) ∈ (appAxamlStep fs st).issues := by
      simp [appAxamlStep, happ, hrt]
    exact appCsStep_mem fs _ _ h1
  · intro fs st e hcs hrt
    show ("Failed to read App.axaml.cs: " ++ e) ∈ (appCsStep fs (appAxamlStep fs st)).issues
    simp [appCsStep, hcs, hrt]
  · intro fs st f e h1 h2
    simp [check_csproj_file, h1, h2]
  · intro fs st e hst happ hrt
    simp [check_resources, hst, happ, hrt]

/-- Witness for `c1_amended_failure_semantics` on concrete trees. -/
theorem c1_amended_failure_semantics_witness :
    check_single_xaml_file fBad1 initState =
      {initState with issues := initState.issues ++ [readFailMsg (fileName fBad1) "boom"]} ∧
    ("Failed to read App.axaml: " ++ "io1") ∈ (check_app_files fsW1 initState).issues ∧
    ("Failed to read App.axaml.cs: " ++ "io2") ∈ (check_app_files fsW1 initState).issues ∧
    check_csproj_file fsW1 initState = Except.error "oserr" ∧
    check_resources fsW1 initState = Except.error "io1" :=
  ⟨c1_amended_failure_semantics.1 fBad1 initState "boom" rfl,
   c1_amended_failure_semantics.2.1 fsW1 initState "io1" rfl rfl,
   c1_amended_failure_semantics.2.2.1 fsW1 initState "io2" rfl rfl,
   c1_amended_failure_semantics.2.2.2.1 fsW1 initState fProj1 "oserr" rfl rfl,
   c1_amended_failure_semantics.2.2.2.2 fsW1 initState "io1" rfl rfl rfl⟩

/-- C5 (confirmed): on a descriptor that parses as well-formed XML and holds
no `PackageReference` whose `Include` mentions Avalonia, the descriptor check
completes without an exception and appends the no-packages issue. -/
theorem c5_no_avalonia_packages (fs : FS) (st : AnalyzerState) (f : FSFile) (root : XMLElem)
    (h1 : (globIn fs [] "*.csproj").head? = some f)
    (h2 : f.xml = XmlOutcome.ok root)
    (h3 : avaloniaPackages root = []) :
    isOkB (check_csproj_file fs st) = true ∧
    noPackagesMsg ∈ okIssues (check_csproj_file fs st) ∧
    st.issues.isPrefixOf (okIssues (check_csproj_file fs st)) = true := by
  cases hf : findDesc root "UseAvalonia" with
  | none =>
    have hres : check_csproj_file fs st = Except.ok
        {st with issues := st.issues ++ [noPackagesMsg],
                 warnings := st.warnings ++ ["UseAvalonia property not found in project file"]} := by
      simp [check_csproj_file, h1, h2, h3, hf]
    rw [hres]
    exact ⟨rfl, by simp [okIssues], isPrefixOf_append_self _ _⟩
  | some el =>
    by_cases hT : el.text = some "true"
    · have hres : check_csproj_file fs st = Except.ok
          {st with issues := st.issues ++ [noPackagesMsg]} := by
        simp [check_csproj_file, h1, h2, h3, hf, hT]
      rw [hres]
      exact ⟨rfl, by simp [okIssues], isPrefixOf_append_self _ _⟩
    · have hres : check_csproj_file fs st = Except.ok
          {st with issues := st.issues ++ [noPackagesMsg] ++ ["UseAvalonia property is not set to true"]} := by
        simp [check_csproj_file, h1, h2, h3, hf, hT]
      rw [hres]
      refine ⟨rfl, by simp [okIssues], ?_⟩
      show st.issues.isPrefixOf
        (st.issues ++ [noPackagesMsg] ++ ["UseAvalonia property is not set to true"]) = true
      rw [List.append_assoc]
      exact isPrefixOf_append_self _ _

/-- Witness for `c5_no_avalonia_packages` on a concrete descriptor. -/
theorem c5_no_avalonia_packages_witness :
    isOkB (check_csproj_file fsW5 initState) = true ∧
    noPackagesMsg ∈ okIssues (check_csproj_file fsW5 initState) ∧
    initState.issues.isPrefixOf (okIssues (check_csproj_file fsW5 initState)) = true :=
  c5_no_avalonia_packages fsW5 initState fCs5 rootW5 rfl rfl rfl

/-- C3 (counterexample): a non-empty markup file whose content contains the
token `ColumnDefinin` but does not start with `<` is rejected by the
root-element guard before the typo scan runs: the only issue appended is
`No root element`, and no corrected-spelling issue is produced. -/
theorem c3_no_root_counterexample :
    check_single_xaml_file fC3 initState = ⟨["X.axaml: No root element"], [], []⟩ ∧
    strContains cC3 "ColumnDefinin" = true ∧
    pyStrip cC3 ≠ "" :=
  ⟨rfl, rfl, by decide⟩

set_option maxHeartbeats 1000000 in
/-- C3 (amended): for a markup file whose stripped content is non-empty AND
starts with `<`, if the content contains one of the fixed misspelled tokens,
the markup check appends an issue carrying the corrected spelling and the
1-based number of the first line containing the token (which is at least 1);
and in general `find_line_number` returns the first matching 1-based line
number, or 0 when no line contains the term. -/
theorem c3_typo_line_numbers :
    (∀ (f : FSFile) (st : AnalyzerState) (content typo correct : String),
        f.content = Except.ok content →
        pyStrip content ≠ "" →
        pyStartsWith (pyStrip content) "<" = true →
        (typo, correct) ∈ typosList →
        strContains content typo = true →
        1 ≤ find_line_number content typo ∧
          typoMsg (fileName f) (find_line_number content typo) typo correct
            ∈ (check_single_xaml_file f st).issues) ∧
    (∀ (content term : String),
        (find_line_number content term = 0 ∧
          ∀ l ∈ splitChar '\n' content.data, containsL term.data l = false) ∨
        (∃ j, j < (splitChar '\n' content.data).length ∧
          find_line_number content term = 1 + j ∧
          containsL term.data ((splitChar '\n' content.data).getD j []) = true ∧
          ∀ j2, j2 < j → containsL term.data ((splitChar '\n' content.data).getD j2 []) = false)) := by
  constructor
  · intro f st content typo correct hco h1 h2 hmem hct
    have hnl : ∀ ch ∈ typo.data, ch ≠ '\n' := by
      simp only [typosList, List.mem_cons, List.mem_singleton, Prod.mk.injEq,
        List.not_mem_nil, or_false] at hmem
      rcases hmem with ⟨rfl, _⟩ | ⟨rfl, _⟩ | ⟨rfl, _⟩ <;> decide
    refine ⟨find_line_number_pos content typo hnl hct, ?_⟩
    have hstep : check_single_xaml_file f st =
        xclassStep f content (propsStep (fileName f) content (typosStep (fileName f) content st)) := by
      simp [check_single_xaml_file, hco, h1, h2]
    rw [hstep, xclassStep_issues, propsStep_eq]
    dsimp only
    rw [typosStep_eq]
    dsimp only
    refine List.mem_append_left _ (List.mem_append_right _ ?_)
    refine List.mem_map.mpr ⟨(typo, correct), List.mem_filter.mpr ⟨hmem, hct⟩, rfl⟩
  · intro content term
    have h := findLineAux_spec term.data (splitChar '\n' content.data) 1
    simpa only [find_line_number] using h

/-- Witness for `c3_typo_line_numbers` on a concrete file with the typo on
line 1. -/
theorem c3_typo_line_numbers_witness :
    1 ≤ find_line_number cC3w "ColumnDefinin" ∧
      typoMsg (fileName fC3w) (find_line_number cC3w "ColumnDefinin")
          "ColumnDefinin" "ColumnDefinitions"
        ∈ (check_single_xaml_file fC3w initState).issues :=
  c3_typo_line_numbers.1 fC3w initState cC3w "ColumnDefinin" "ColumnDefinitions"
    rfl (by decide) rfl (by decide) rfl

/-- C6 (counterexample): the guard is `Path.exists()`, which is also true for
a directory.  In `fsC6`, App.axaml references `Source="Styles"`; no FILE
exists at that path (only the directory), yet the app-file check yields no
issue at all. -/
theorem c6_dir_counterexample :
    check_app_files fsC6 initState =
      ⟨[], [], ["App.axaml looks valid", "App.axaml.cs exists"]⟩ ∧
    strContains cC6 "StyleInclude" = true ∧
    findSources cC6 = ["Styles"] ∧
    lookupFile fsC6 ["Styles"] = none ∧
    pathExists fsC6 ["Styles"] = true :=
  ⟨rfl, rfl, rfl, rfl, rfl⟩

/-- C6 (amended): for an App.axaml referencing a style-include path that does
not resolve to an existing file OR directory, the app-file check yields an
issue naming that path, and exactly one such issue per occurrence of the path
among the extracted `Source` values. -/
theorem c6_missing_style_issue (fs : FS) (st : AnalyzerState) (c sp : String)
    (hr : readText fs ["App.axaml"] = Except.ok c)
    (ht : strContains c "StyleInclude" = true)
    (hm : sp ∈ findSources c)
    (hx : pathExists fs (splitSlash sp) = false) :
    missingStyleMsg sp ∈ (check_app_files fs st).issues ∧
    (appStyleIssues fs c).count (missingStyleMsg sp) = (findSources c).count sp := by
  have happ : pathExists fs ["App.axaml"] = true := readText_ok_exists fs ["App.axaml"] c hr
  have hmemStyle : missingStyleMsg sp ∈ appStyleIssues fs c := by
    rw [appStyleIssues_eq]
    simp only [ht, if_true]
    exact List.mem_map_of_mem _ (List.mem_filter.mpr ⟨hm, by simp [hx]⟩)
  constructor
  · apply appCsStep_mem
    simp only [appAxamlStep, happ, if_true, hr]
    exact List.mem_append_right _ hmemStyle
  · rw [appStyleIssues_eq]
    simp only [ht, if_true]
    rw [count_map_missing]
    exact List.count_filter (by simp [hx])

/-- Witness for `c6_missing_style_issue` on a concrete tree. -/
theorem c6_missing_style_issue_witness :
    missingStyleMsg "Styles/Missing.axaml" ∈ (check_app_files fsW6 initState).issues ∧
    (appStyleIssues fsW6 cW6).count (missingStyleMsg "Styles/Missing.axaml") =
      (findSources cW6).count "Styles/Missing.axaml" :=
  c6_missing_style_issue fsW6 initState cW6 "Styles/Missing.axaml" rfl rfl (by decide) rfl

/-- C9 (confirmed): the style-include validation runs only when the literal
token `StyleInclude` occurs in the content; in that case every `Source="..."`
value extracted from the whole file (`findSources`, irrespective of which
element carries the attribute) is path-checked, yielding one issue per value
whose path does not exist; when the token is absent the block yields nothing
even if `Source` attributes are present. -/
theorem c9_style_include_gate (fs : FS) (c : String) :
    appStyleIssues fs c =
      if strContains c "StyleInclude" then
        ((findSources c).filter fun sp => !(pathExists fs (splitSlash sp))).map missingStyleMsg
      else [] :=
  appStyleIssues_eq fs c
